import Mathlib

/-!
Verification of the sales-analysis HTTP endpoint (`analyze_file` in `app.py`).

The endpoint reads an uploaded spreadsheet into a column-labelled table,
validates the schema (required columns, numeric `Sales`/`Revenue`, parseable
`Date`), filters rows by a comma-separated list of 3-letter month
abbreviations, and computes bar-chart data (per-month sales sums, pandas
`groupby` on the month label, which sorts keys ascending), pie-chart data
(per-product sales sums, sorted descending, top 5, converted to percentages of
the filtered total with `round(_, 1)`), summary statistics and two lists of
narrative insight strings.

Modelling notes:
* Machine floats of the Python code are modelled by exact rationals `ℚ`;
  `round(x, 1)` is modelled as exact round-half-to-even of `x * 10` divided
  by 10 (`round1` below), the idealization of Python's rounding.
* pandas `groupby(k)[v].sum()` yields one row per distinct key, keys sorted
  ascending; it is modelled by `groupSum` (sorted distinct keys, each paired
  with the sum of the group).
* `pie_chart_data.iterrows()` yields the index labels assigned by
  `reset_index` before `sort_values`, so pie colors are keyed by each
  product's rank in ascending product order, not by position after the
  descending sort; `List.enum` before sorting models this.
* Summary stats are modelled as the three numeric values; the Python string
  formatting (`f"${v:,.2f}"` etc.) is a function of these values only.
* Product labels are taken from text cells; the claims under check only
  involve textual product labels.
-/

/-- Calendar date as produced by `pd.to_datetime`; only year/month/day are
kept, and only the month is consumed downstream. -/
structure MDate where
  year : Nat
  month : Nat
  day : Nat
  deriving DecidableEq

/-- One spreadsheet cell as pandas sees it after `read_excel`: numeric, text
or datetime. -/
inductive Cell where
  | num (q : ℚ)
  | text (s : String)
  | date (d : MDate)
  deriving DecidableEq

/-- The in-memory DataFrame produced by `pd.read_excel`: named columns of
cells. -/
structure RawTable where
  cols : List (String × List Cell)

/-- One validated record: `Date`, `Sales`, `Revenue`, `Product`. -/
structure Row where
  date : MDate
  sales : ℚ
  revenue : ℚ
  product : String
  deriving DecidableEq

/-- Bar-chart entry `{month, sales, color}`. -/
structure ChartPoint where
  month : String
  sales : ℚ
  color : String
  deriving DecidableEq

/-- Pie-chart entry `{name, value, color}`; `value` is a percentage. -/
structure Slice where
  name : String
  value : ℚ
  color : String
  deriving DecidableEq

/-- The three numeric summary statistics (total revenue, total sales,
average sales); the formatted strings of the response are functions of
these. -/
structure SummaryStats where
  totalRevenue : ℚ
  totalSales : ℚ
  avgSales : ℚ
  deriving DecidableEq

/-- The `insights` object: three top-performer strings and three
recommendation strings. -/
structure Insights where
  topPerformers : List String
  recommendations : List String
  deriving DecidableEq

/-- The JSON success body of `/api/analyze`. -/
structure Resp where
  barChartData : List ChartPoint
  pieChartData : List Slice
  summaryStats : SummaryStats
  insights : Insights
  deriving DecidableEq

/-- An error response: HTTP status code and message. -/
abbrev ErrResp := Nat × String

/-- The 3-letter English month abbreviations produced by `strftime('%b')`. -/
def monthNames : List String :=
  ["Jan", "Feb", "Mar", "Apr", "May", "Jun",
   "Jul", "Aug", "Sep", "Oct", "Nov", "Dec"]

/-- `strftime('%b')` on a date with month `m` (1-based). -/
def monthAbbrev (m : Nat) : String := monthNames.getD (m - 1) ""

/-- Round-half-to-even of a rational to an integer (the rounding Python's
`round` uses, idealized to exact arithmetic). -/
def rnd (q : ℚ) : ℤ :=
  if q - ⌊q⌋ < 1/2 then ⌊q⌋
  else if 1/2 < q - ⌊q⌋ then ⌊q⌋ + 1
  else if ⌊q⌋ % 2 = 0 then ⌊q⌋ else ⌊q⌋ + 1

/-- Python's `round(x, 1)`: nearest multiple of `1/10`, ties to even. -/
def round1 (q : ℚ) : ℚ := (rnd (q * 10) : ℚ) / 10

/-- Decimal rendering of a one-decimal nonnegative rational, as Python
formats the rounded pie value inside an f-string (`66.7` → `"66.7"`). -/
def fmtVal (q : ℚ) : String :=
  toString (⌊q * 10⌋ / 10) ++ "." ++ toString (⌊q * 10⌋ % 10)

/-- Lexicographic comparison of character lists by code point — how Python
(and hence pandas sorting of string labels) compares strings. -/
def charListLt : List Char → List Char → Bool
  | [], [] => false
  | [], _ :: _ => true
  | _ :: _, [] => false
  | a :: as, b :: bs =>
    if a.toNat < b.toNat then true
    else if b.toNat < a.toNat then false
    else charListLt as bs

/-- Python's `<` on strings: lexicographic by code point. -/
def strLt (a b : String) : Bool := charListLt a.data b.data

/-- Insert a key into a sorted duplicate-free list, keeping it sorted and
duplicate-free. -/
def insertSortedDedup (a : String) : List String → List String
  | [] => [a]
  | x :: xs =>
    if a == x then x :: xs
    else if strLt a x then a :: x :: xs
    else x :: insertSortedDedup a xs

/-- The distinct elements of a list, sorted ascending — the group keys a
pandas `groupby` (with its default `sort=True`) produces. -/
def distinctKeysSorted (l : List String) : List String :=
  l.foldr insertSortedDedup []

/-- pandas `df.groupby(key)[val].sum()`: one entry per distinct key, keys
sorted ascending, each paired with the sum of `val` over its group. -/
def groupSum (key : Row → String) (val : Row → ℚ) (rows : List Row) :
    List (String × ℚ) :=
  (distinctKeysSorted (rows.map key)).map
    (fun k => (k, ((rows.filter (fun r => key r == k)).map val).sum))

/-- `required_columns` of `analyze_file`. -/
def requiredColumns : List String := ["Date", "Sales", "Revenue", "Product"]

/-- The column labels of the DataFrame (`df.columns`). -/
def headers (t : RawTable) : List String := t.cols.map Prod.fst

/-- Column access `df[name]` (empty when absent; only used when present). -/
def getCol (t : RawTable) (name : String) : List Cell :=
  ((t.cols.find? (fun c => c.1 == name)).map Prod.snd).getD []

/-- `missing_columns = [col for col in required_columns if col not in
df.columns]`. -/
def missingColumns (t : RawTable) : List String :=
  requiredColumns.filter (fun c => !(headers t).contains c)

/-- Whether a cell is numeric; a column is numeric-dtyped exactly when every
cell is. -/
def isNumCell : Cell → Bool
  | .num _ => true
  | _ => false

/-- Numeric value of a cell (only consumed after the numeric-dtype check). -/
def cellNum : Cell → ℚ
  | .num q => q
  | _ => 0

/-- Textual label of a cell; product labels in the validated data are text. -/
def cellLabel : Cell → String
  | .text s => s
  | _ => ""

/-- `pd.to_datetime` on one cell: datetime cells with a valid month parse,
anything else raises. -/
def parseDate : Cell → Option MDate
  | .date d => if 1 ≤ d.month ∧ d.month ≤ 12 then some d else none
  | _ => none

/-- `pd.to_datetime(df['Date'])`: every cell must parse. -/
def parseDates (cells : List Cell) : Option (List MDate) :=
  cells.mapM parseDate

/-- Zip the four validated columns into rows. -/
def buildRows : List MDate → List Cell → List Cell → List Cell → List Row
  | d :: ds, s :: ss, r :: rs, p :: ps =>
    ⟨d, cellNum s, cellNum r, cellLabel p⟩ :: buildRows ds ss rs ps
  | _, _, _, _ => []

/-- The validation prefix of `analyze_file` (lines 41-57 of `app.py`):
missing-column check, then numeric-dtype check on `Sales`/`Revenue`, then
date parsing — in that order. -/
def validateTable (t : RawTable) : Except ErrResp (List Row) :=
  if missingColumns t ≠ [] then
    Except.error (400, "Missing required columns: " ++
      String.intercalate ", " (missingColumns t))
  else if !((getCol t "Sales").all isNumCell &&
            (getCol t "Revenue").all isNumCell) then
    Except.error (400, "Sales and Revenue columns must contain numeric values")
  else
    match parseDates (getCol t "Date") with
    | none => Except.error (400, "Invalid date format in Date column")
    | some ds =>
      Except.ok (buildRows ds (getCol t "Sales") (getCol t "Revenue")
        (getCol t "Product"))

/-- Python's `str.split(',')` on the character list: split at every comma,
keeping empty pieces (`"".split(',') == ['']`). -/
def splitCommaAux : List Char → List Char → List String
  | [], acc => [String.mk acc.reverse]
  | c :: cs, acc =>
    if c = ',' then String.mk acc.reverse :: splitCommaAux cs []
    else splitCommaAux cs (c :: acc)

/-- Python's `specific_months.split(',')`. -/
def splitComma (s : String) : List String := splitCommaAux s.data []

/-- Python's `str.strip()`: drop whitespace from both ends (the month
abbreviations in play are ASCII). -/
def pyStrip (s : String) : String :=
  String.mk (((s.data.dropWhile Char.isWhitespace).reverse.dropWhile
    Char.isWhitespace).reverse)

/-- `[m.strip() for m in specific_months.split(',')]`. -/
def parseMonths (s : String) : List String := (splitComma s).map pyStrip

/-- The month filter (lines 59-73): when `specificMonths` is nonempty keep
rows whose month abbreviation is in the list, else keep everything. -/
def monthFilter (sm : String) (rows : List Row) : List Row :=
  if sm = "" then rows
  else rows.filter (fun r => (parseMonths sm).contains (monthAbbrev r.date.month))

/-- `bar_colors`, the 12-entry palette. -/
def barColors : List String :=
  ["#3B82F6", "#10B981", "#F59E0B", "#EF4444", "#8B5CF6", "#EC4899",
   "#06B6D4", "#D97706", "#6366F1", "#F472B6", "#14B8A6", "#F43F5E"]

/-- `colors`, the 5-entry pie palette. -/
def pieColors : List String :=
  ["#3B82F6", "#10B981", "#F59E0B", "#EF4444", "#8B5CF6"]

/-- The month key of a row, `row['Date'].strftime('%b')`. -/
def monthKey (r : Row) : String := monthAbbrev r.date.month

/-- `recent_data.groupby(recent_data['Date'].dt.strftime('%b')).agg({'Sales': 'sum'})`. -/
def barSums (rows : List Row) : List (String × ℚ) :=
  groupSum monthKey Row.sales rows

/-- `recent_data.groupby('Product')['Sales'].sum()`. -/
def productSums (rows : List Row) : List (String × ℚ) :=
  groupSum Row.product Row.sales rows

/-- `recent_data['Sales'].sum()`. -/
def totalSales (rows : List Row) : ℚ := (rows.map Row.sales).sum

/-- `bar_chart_data` (lines 104-118): month groups with their sales sums and
a positional color from the 12-entry palette. -/
def barChartData (rows : List Row) : List ChartPoint :=
  (barSums rows).enum.map
    (fun p => ⟨p.2.1, p.2.2, barColors.getD (p.1 % barColors.length) ""⟩)

/-- The grouped product sums, tagged with their `reset_index` index (rank in
ascending product order), sorted descending by summed sales, first 5 —
`groupby('Product')['Sales'].sum().reset_index().sort_values('Sales',
ascending=False).head(5)`. pandas' unstable quicksort is modelled by a stable
sort; no claim under check depends on the order among tied sums. -/
def pieTop5 (rows : List Row) : List (Nat × String × ℚ) :=
  (List.insertionSort (fun a b => b.2.2 ≤ a.2.2) (productSums rows).enum).take 5

/-- `round(row['Sales'] / total_sales * 100, 1) if total_sales > 0 else 0`. -/
def sliceVal (total s : ℚ) : ℚ :=
  if 0 < total then round1 (s / total * 100) else 0

/-- `pie_chart_data` (lines 120-137); the color index is the `iterrows`
index label, i.e. the product's rank in ascending product order. -/
def pieChartData (rows : List Row) : List Slice :=
  (pieTop5 rows).map
    (fun e => ⟨e.2.1, sliceVal (totalSales rows) e.2.2,
               pieColors.getD (e.1 % pieColors.length) ""⟩)

/-- `idxmax` over a grouped sum: the first key attaining the maximal value,
`"N/A"` on the empty series. -/
def argmaxGo (best : String × ℚ) : List (String × ℚ) → String
  | [] => best.1
  | y :: ys => argmaxGo (if best.2 < y.2 then y else best) ys

/-- First key with maximal value (`Series.idxmax`). -/
def argmaxFirst : List (String × ℚ) → String
  | [] => "N/A"
  | x :: xs => argmaxGo x xs

/-- The aggregation body of `analyze_file` (lines 103-184) on the filtered
table. -/
def buildResp (recent : List Row) : Resp :=
  let pie := pieChartData recent
  let total := totalSales recent
  let cnt := recent.length
  let topMonth := if recent.isEmpty then "N/A" else argmaxFirst (barSums recent)
  let topProduct :=
    if recent.isEmpty then "N/A" else argmaxFirst (productSums recent)
  { barChartData := barChartData recent
    pieChartData := pie
    summaryStats :=
      ⟨(recent.map Row.revenue).sum, total,
       if 0 < cnt then total / cnt else 0⟩
    insights :=
      ⟨[if topMonth ≠ "N/A" then topMonth ++ " showed the highest sales volume"
        else "No data available",
        match pie with
        | [] => "No data available"
        | s0 :: _ =>
          topProduct ++ " dominates with " ++ fmtVal s0.value ++
            "% market share",
        "Review sales trends for optimization"],
       [if topProduct ≠ "N/A" then
          "Focus marketing efforts on " ++ topProduct ++ " success"
        else "No top product identified",
        "Analyze underperforming products",
        if topMonth ≠ "N/A" then
          "Consider expanding successful " ++ topMonth ++ " strategies"
        else "No top month identified"]⟩ }

/-- The post-validation part of `analyze_file`: month filter, empty checks,
aggregation. `pf` is the `productFilter` form field, read but (the filter
block being commented out) never used. -/
def analyzeRows (rows : List Row) (sm pf : String) : Except ErrResp Resp :=
  if sm ≠ "" ∧ monthFilter sm rows = [] then
    Except.error (400, "No data found for specified months: " ++ sm)
  else if monthFilter sm rows = [] then
    Except.error (400, "No data available after applying product filter")
  else
    Except.ok (buildResp (monthFilter sm rows))

/-- The whole `analyze_file` handler after `read_excel`: validation followed
by filtering and aggregation. -/
def analyzeFile (t : RawTable) (sm pf : String) : Except ErrResp Resp :=
  match validateTable t with
  | Except.error e => Except.error e
  | Except.ok rows => analyzeRows rows sm pf

/-- The spec's scenario table: rows `(Jan-05, 10, 100, "A")`,
`(Jan-12, 20, 200, "B")`, `(Feb-01, 5, 50, "A")`, already validated. -/
def scenRows : List Row :=
  [⟨⟨2024, 1, 5⟩, 10, 100, "A"⟩,
   ⟨⟨2024, 1, 12⟩, 20, 200, "B"⟩,
   ⟨⟨2024, 2, 1⟩, 5, 50, "A"⟩]

/-- The scenario table filtered to January. -/
def scenJanRows : List Row :=
  [⟨⟨2024, 1, 5⟩, 10, 100, "A"⟩, ⟨⟨2024, 1, 12⟩, 20, 200, "B"⟩]

/-- The spec's scenario table in raw (pre-validation) form. -/
def scenTable : RawTable :=
  ⟨[("Date", [.date ⟨2024, 1, 5⟩, .date ⟨2024, 1, 12⟩, .date ⟨2024, 2, 1⟩]),
    ("Sales", [.num 10, .num 20, .num 5]),
    ("Revenue", [.num 100, .num 200, .num 50]),
    ("Product", [.text "A", .text "B", .text "C"])]⟩

/-- Five products with sales 1, 1, 1, 1, 3 in one month: each percentage
rounds up (100/7 → 14.3, 300/7 → 42.9), so the rounded pie values sum to
100.1. -/
def sevenRows : List Row :=
  [⟨⟨2024, 1, 1⟩, 1, 0, "A"⟩,
   ⟨⟨2024, 1, 2⟩, 1, 0, "B"⟩,
   ⟨⟨2024, 1, 3⟩, 1, 0, "C"⟩,
   ⟨⟨2024, 1, 4⟩, 1, 0, "D"⟩,
   ⟨⟨2024, 1, 5⟩, 3, 0, "E"⟩]

/-- One valid row; its sole pie slice has value 100. -/
def oneRow : List Row := [⟨⟨2024, 3, 5⟩, 10, 25, "A"⟩]

/-- A table whose `Sales` and `Product` columns are absent. -/
def tableMissingCols : RawTable :=
  ⟨[("Date", [.text "garbage"]), ("Revenue", [.text "N/A"])]⟩

/-- A table whose `Sales` column contains the text cell `"N/A"`. -/
def tableBadSales : RawTable :=
  ⟨[("Date", [.date ⟨2024, 1, 5⟩, .date ⟨2024, 2, 1⟩]),
    ("Sales", [.num 10, .text "N/A"]),
    ("Revenue", [.num 100, .num 50]),
    ("Product", [.text "A", .text "B"])]⟩

/-- A valid raw table containing only January and February rows. -/
def tableJanFeb : RawTable :=
  ⟨[("Date", [.date ⟨2024, 1, 5⟩, .date ⟨2024, 2, 1⟩]),
    ("Sales", [.num 10, .num 5]),
    ("Revenue", [.num 100, .num 50]),
    ("Product", [.text "A", .text "A"])]⟩

/-- Rows spread over January and February with two products. -/
def janFebRows : List Row :=
  [⟨⟨2024, 1, 5⟩, 10, 100, "A"⟩,
   ⟨⟨2024, 2, 1⟩, 5, 50, "B"⟩]

/-- The rounded integer never falls below the floor. -/
theorem floor_le_rnd (q : ℚ) : ⌊q⌋ ≤ rnd q := by
  unfold rnd; split_ifs <;> omega

/-- Rounding to the nearest integer adds at most one half. -/
theorem rnd_le (q : ℚ) : (rnd q : ℚ) ≤ q + 1/2 := by
  have h1 : (⌊q⌋ : ℚ) ≤ q := Int.floor_le q
  have h2 : q < ⌊q⌋ + 1 := Int.lt_floor_add_one q
  unfold rnd; split_ifs <;> push_cast <;> linarith

/-- Rounding to the nearest integer subtracts at most one half. -/
theorem le_rnd (q : ℚ) : q - 1/2 ≤ (rnd q : ℚ) := by
  have h1 : (⌊q⌋ : ℚ) ≤ q := Int.floor_le q
  have h2 : q < ⌊q⌋ + 1 := Int.lt_floor_add_one q
  unfold rnd; split_ifs <;> push_cast <;> linarith

/-- `round(x, 1)` adds at most `0.05`. -/
theorem round1_le (q : ℚ) : round1 q ≤ q + 1/20 := by
  have := rnd_le (q * 10)
  unfold round1; linarith

/-- `round(x, 1)` subtracts at most `0.05`. -/
theorem le_round1 (q : ℚ) : q - 1/20 ≤ round1 q := by
  have := le_rnd (q * 10)
  unfold round1; linarith

/-- `round(x, 1)` of a nonnegative number is nonnegative. -/
theorem round1_nonneg (q : ℚ) (h : 0 ≤ q) : 0 ≤ round1 q := by
  have h0 : (0 : ℤ) ≤ ⌊q * 10⌋ := Int.floor_nonneg.mpr (by linarith)
  have h1 : (0 : ℤ) ≤ rnd (q * 10) := le_trans h0 (floor_le_rnd _)
  have h2 : (0 : ℚ) ≤ (rnd (q * 10) : ℚ) := by exact_mod_cast h1
  unfold round1; linarith

/-- `round(x, 1)` of a number at most 100 is at most 100 (the result is a
multiple of one tenth, so overshooting by less than one twentieth cannot
cross 100). -/
theorem round1_le_hundred (q : ℚ) (h : q ≤ 100) : round1 q ≤ 100 := by
  have h1 : (rnd (q * 10) : ℚ) ≤ 1000 + 1/2 := by
    have := rnd_le (q * 10); linarith
  have h2 : (rnd (q * 10) : ℚ) < 1001 := lt_of_le_of_lt h1 (by norm_num)
  have h2i : rnd (q * 10) < 1001 := by exact_mod_cast h2
  have h3 : (rnd (q * 10) : ℚ) ≤ 1000 := by exact_mod_cast Int.lt_add_one_iff.mp h2i
  unfold round1; linarith

/-- Evaluation rule for `round1` when the scaled value rounds down. -/
theorem round1_eq_down (q : ℚ) (z : ℤ) (v : ℚ) (h1 : (z : ℚ) ≤ q * 10)
    (h2 : q * 10 < (z : ℚ) + 1/2) (hv : (z : ℚ)/10 = v) : round1 q = v := by
  have hz : ⌊q * 10⌋ = z := Int.floor_eq_iff.mpr ⟨h1, by push_cast; linarith⟩
  unfold round1 rnd
  rw [hz, if_pos (by linarith)]
  exact hv

/-- Evaluation rule for `round1` when the scaled value rounds up. -/
theorem round1_eq_up (q : ℚ) (z : ℤ) (v : ℚ) (h1 : (z : ℚ) + 1/2 < q * 10)
    (h2 : q * 10 < (z : ℚ) + 1) (hv : ((z : ℚ) + 1)/10 = v) : round1 q = v := by
  have hz : ⌊q * 10⌋ = z := Int.floor_eq_iff.mpr ⟨by linarith, by push_cast; linarith⟩
  unfold round1 rnd
  rw [hz, if_neg (by linarith), if_pos (by linarith)]
  push_cast
  exact hv


theorem charListLt_irrefl (l : List Char) : charListLt l l = false := by
  induction l with
  | nil => rfl
  | cons a as ih => simp [charListLt, ih]

theorem charListLt_trans {l1 l2 l3 : List Char} (h1 : charListLt l1 l2 = true)
    (h2 : charListLt l2 l3 = true) : charListLt l1 l3 = true := by
  induction l1 generalizing l2 l3 with
  | nil =>
    cases l2 with
    | nil => exact absurd h1 (by simp [charListLt])
    | cons b bs =>
      cases l3 with
      | nil => exact absurd h2 (by simp [charListLt])
      | cons c cs => simp [charListLt]
  | cons a as ih =>
    cases l2 with
    | nil => exact absurd h1 (by simp [charListLt])
    | cons b bs =>
      cases l3 with
      | nil => exact absurd h2 (by simp [charListLt])
      | cons c cs =>
        rcases Nat.lt_trichotomy a.toNat b.toNat with hab | hab | hab <;>
          rcases Nat.lt_trichotomy b.toNat c.toNat with hbc | hbc | hbc
        · simp only [charListLt]; rw [if_pos (by omega)]
        · simp only [charListLt]; rw [if_pos (by omega)]
        · simp only [charListLt] at h2
          rw [if_neg (by omega), if_pos (by omega)] at h2
          simp at h2
        · simp only [charListLt]; rw [if_pos (by omega)]
        · simp only [charListLt] at h1 h2 ⊢
          rw [if_neg (by omega), if_neg (by omega)] at h1
          rw [if_neg (by omega), if_neg (by omega)] at h2
          rw [if_neg (by omega), if_neg (by omega)]
          exact ih h1 h2
        · simp only [charListLt] at h2
          rw [if_neg (by omega), if_pos (by omega)] at h2
          simp at h2
        · simp only [charListLt] at h1
          rw [if_neg (by omega), if_pos (by omega)] at h1
          simp at h1
        · simp only [charListLt] at h1
          rw [if_neg (by omega), if_pos (by omega)] at h1
          simp at h1
        · simp only [charListLt] at h1
          rw [if_neg (by omega), if_pos (by omega)] at h1
          simp at h1

theorem charListLt_antisymm {l1 l2 : List Char} (h1 : charListLt l1 l2 = false)
    (h2 : charListLt l2 l1 = false) : l1 = l2 := by
  induction l1 generalizing l2 with
  | nil =>
    cases l2 with
    | nil => rfl
    | cons b bs => simp [charListLt] at h1
  | cons a as ih =>
    cases l2 with
    | nil => simp [charListLt] at h2
    | cons b bs =>
      rcases Nat.lt_trichotomy a.toNat b.toNat with hab | hab | hab
      · simp only [charListLt] at h1
        rw [if_pos hab] at h1
        simp at h1
      · have hc : a = b := by
          have hv : a.val.toNat = b.val.toNat := hab
          exact Char.ext (UInt32.ext hv)
        subst hc
        simp only [charListLt] at h1 h2
        rw [if_neg (by omega), if_neg (by omega)] at h1
        rw [if_neg (by omega), if_neg (by omega)] at h2
        rw [ih h1 h2]
      · simp only [charListLt] at h2
        rw [if_pos hab] at h2
        simp at h2

theorem strLt_irrefl (a : String) : strLt a a = false := charListLt_irrefl _

theorem strLt_trans {a b c : String} (h1 : strLt a b = true)
    (h2 : strLt b c = true) : strLt a c = true := charListLt_trans h1 h2

theorem strLt_antisymm {a b : String} (h1 : strLt a b = false)
    (h2 : strLt b a = false) : a = b := by
  cases a with
  | mk da =>
    cases b with
    | mk db => exact congrArg String.mk (charListLt_antisymm h1 h2)

theorem strLt_ne {a b : String} (h : strLt a b = true) : a ≠ b := by
  rintro rfl
  rw [strLt_irrefl] at h
  cases h

theorem mem_insertSortedDedup (a b : String) (l : List String) :
    b ∈ insertSortedDedup a l ↔ b = a ∨ b ∈ l := by
  induction l with
  | nil => simp [insertSortedDedup]
  | cons x xs ih =>
    unfold insertSortedDedup
    split_ifs with h1 h2
    · rw [beq_iff_eq] at h1
      subst h1
      simp [List.mem_cons]
      try tauto
    · simp [List.mem_cons]
      try tauto
    · simp [List.mem_cons, ih]
      try tauto

theorem pairwise_insertSortedDedup (a : String) (l : List String)
    (h : l.Pairwise (fun x y => strLt x y = true)) :
    (insertSortedDedup a l).Pairwise (fun x y => strLt x y = true) := by
  induction l with
  | nil => simp [insertSortedDedup]
  | cons x xs ih =>
    unfold insertSortedDedup
    rcases h with _ | ⟨hx, hxs⟩
    split_ifs with h1 h2
    · exact List.Pairwise.cons hx hxs
    · refine List.Pairwise.cons ?_ (List.Pairwise.cons hx hxs)
      intro b hb
      rcases List.mem_cons.mp hb with rfl | hb
      · exact h2
      · exact strLt_trans h2 (hx b hb)
    · have hne : a ≠ x := fun e => h1 (by rw [e, beq_self_eq_true])
      have h2f : strLt a x = false := by
        revert h2
        cases strLt a x <;> simp
      have hxa : strLt x a = true := by
        cases hcase : strLt x a with
        | true => rfl
        | false => exact absurd (strLt_antisymm h2f hcase) hne
      refine List.Pairwise.cons ?_ (ih hxs)
      intro b hb
      rcases (mem_insertSortedDedup a b xs).mp hb with rfl | hb
      · exact hxa
      · exact hx b hb

theorem pairwise_distinctKeysSorted (l : List String) :
    (distinctKeysSorted l).Pairwise (fun x y => strLt x y = true) := by
  induction l with
  | nil => simp [distinctKeysSorted]
  | cons x xs ih => exact pairwise_insertSortedDedup x _ ih

theorem mem_distinctKeysSorted (a : String) (l : List String) :
    a ∈ distinctKeysSorted l ↔ a ∈ l := by
  induction l with
  | nil => simp [distinctKeysSorted]
  | cons x xs ih =>
    show a ∈ insertSortedDedup x (distinctKeysSorted xs) ↔ _
    rw [mem_insertSortedDedup, ih]
    simp [List.mem_cons]

theorem nodup_distinctKeysSorted (l : List String) :
    (distinctKeysSorted l).Nodup :=
  (pairwise_distinctKeysSorted l).imp strLt_ne

theorem map_fst_pairing {α β : Type} (l : List α) (f : α → β) :
    (l.map (fun k => (k, f k))).map Prod.fst = l := by
  induction l with
  | nil => rfl
  | cons x xs ih => simp [ih]

theorem groupSum_keys (key : Row → String) (val : Row → ℚ) (rows : List Row) :
    (groupSum key val rows).map Prod.fst = distinctKeysSorted (rows.map key) := by
  exact map_fst_pairing _ _

theorem mem_groupSum_val (key : Row → String) (val : Row → ℚ) (rows : List Row)
    (p : String × ℚ) (hp : p ∈ groupSum key val rows) :
    p.2 = ((rows.filter (fun r => key r == p.1)).map val).sum := by
  rcases List.mem_map.mp hp with ⟨k, _, rfl⟩
  rfl

theorem mem_groupSum_key (key : Row → String) (val : Row → ℚ) (rows : List Row)
    (p : String × ℚ) (hp : p ∈ groupSum key val rows) : p.1 ∈ rows.map key := by
  rcases List.mem_map.mp hp with ⟨k, hk, rfl⟩
  exact (mem_distinctKeysSorted k _).mp hk

theorem sum_map_add {α : Type} (ks : List α) (f g : α → ℚ) :
    (ks.map (fun k => f k + g k)).sum = (ks.map f).sum + (ks.map g).sum := by
  induction ks with
  | nil => simp
  | cons x xs ih => simp [ih]; ring

theorem sum_ite_of_not_mem (ks : List String) (a : String) (v : ℚ)
    (ha : a ∉ ks) : (ks.map (fun k => if a = k then v else 0)).sum = 0 := by
  induction ks with
  | nil => simp
  | cons x xs ih =>
    have hax : a ≠ x := fun e => ha (e ▸ List.mem_cons_self x xs)
    have haxs : a ∉ xs := fun h => ha (List.mem_cons_of_mem x h)
    simp [hax, ih haxs]

theorem sum_ite_of_mem (ks : List String) (a : String) (v : ℚ)
    (hnd : ks.Nodup) (ha : a ∈ ks) :
    (ks.map (fun k => if a = k then v else 0)).sum = v := by
  induction ks with
  | nil => cases ha
  | cons x xs ih =>
    rcases List.mem_cons.mp ha with rfl | hmem
    · have : a ∉ xs := (List.nodup_cons.mp hnd).1
      simp [sum_ite_of_not_mem xs a v this]
    · have hax : a ≠ x := by
        rintro rfl
        exact (List.nodup_cons.mp hnd).1 hmem
      simp [hax, ih (List.nodup_cons.mp hnd).2 hmem]

theorem sum_filterSums (key : Row → String) (val : Row → ℚ)
    (ks : List String) (hnd : ks.Nodup) (rows : List Row)
    (hcov : ∀ r ∈ rows, key r ∈ ks) :
    (ks.map (fun k => ((rows.filter (fun r => key r == k)).map val).sum)).sum
      = (rows.map val).sum := by
  induction rows with
  | nil => simp
  | cons r rest ih =>
    have hstep : ∀ k ∈ ks,
        (((r :: rest).filter (fun x => key x == k)).map val).sum
          = (if key r = k then val r else 0)
            + ((rest.filter (fun x => key x == k)).map val).sum := by
      intro k _
      by_cases h : key r = k <;> simp [List.filter_cons, h]
    rw [List.map_congr_left hstep, sum_map_add,
        sum_ite_of_mem ks (key r) (val r) hnd (hcov r (List.mem_cons_self r rest)),
        ih (fun x hx => hcov x (List.mem_cons_of_mem r hx))]
    simp

theorem groupSum_sum (key : Row → String) (val : Row → ℚ) (rows : List Row) :
    ((groupSum key val rows).map Prod.snd).sum = (rows.map val).sum := by
  have h1 : (groupSum key val rows).map Prod.snd
      = (distinctKeysSorted (rows.map key)).map
          (fun k => ((rows.filter (fun r => key r == k)).map val).sum) := by
    simp [groupSum, List.map_map, Function.comp]
  rw [h1]
  exact sum_filterSums key val _ (nodup_distinctKeysSorted _) rows
    (fun r hr => (mem_distinctKeysSorted _ _).mpr (List.mem_map_of_mem key hr))

theorem sum_filter_le_sum (val : Row → ℚ) (p : Row → Bool) (rows : List Row)
    (h : ∀ r ∈ rows, 0 ≤ val r) :
    ((rows.filter p).map val).sum ≤ (rows.map val).sum := by
  induction rows with
  | nil => simp
  | cons r rest ih =>
    have hr : 0 ≤ val r := h r (List.mem_cons_self r rest)
    have ihr := ih (fun x hx => h x (List.mem_cons_of_mem r hx))
    by_cases hp : p r <;> simp [List.filter_cons, hp] <;> linarith

theorem groupSum_val_nonneg (key : Row → String) (val : Row → ℚ)
    (rows : List Row) (h : ∀ r ∈ rows, 0 ≤ val r) (p : String × ℚ)
    (hp : p ∈ groupSum key val rows) : 0 ≤ p.2 := by
  rw [mem_groupSum_val key val rows p hp]
  exact List.sum_nonneg (fun x hx => by
    rcases List.mem_map.mp hx with ⟨r, hr, rfl⟩
    exact h r (List.mem_filter.mp hr).1)

theorem groupSum_val_le_total (key : Row → String) (val : Row → ℚ)
    (rows : List Row) (h : ∀ r ∈ rows, 0 ≤ val r) (p : String × ℚ)
    (hp : p ∈ groupSum key val rows) : p.2 ≤ (rows.map val).sum := by
  rw [mem_groupSum_val key val rows p hp]
  exact sum_filter_le_sum val _ rows h

theorem sum_take_le (l : List ℚ) (n : Nat) (h : ∀ x ∈ l, 0 ≤ x) :
    (l.take n).sum ≤ l.sum := by
  have hsplit : (l.take n).sum + (l.drop n).sum = l.sum := by
    rw [← List.sum_append, List.take_append_drop]
  have h2 : 0 ≤ (l.drop n).sum :=
    List.sum_nonneg (fun x hx => h x (List.drop_subset n l hx))
  linarith

theorem sum_map_mul_right {α : Type} (l : List α) (f : α → ℚ) (c : ℚ) :
    (l.map (fun x => f x * c)).sum = (l.map f).sum * c := by
  induction l with
  | nil => simp
  | cons x xs ih => simp [ih]; ring

theorem sum_map_const {α : Type} (l : List α) (c : ℚ) :
    (l.map (fun _ => c)).sum = l.length * c := by
  induction l with
  | nil => simp
  | cons x xs ih => simp [ih]; ring

theorem map_enumFrom_snd {α β : Type} (f : α → β) (n : Nat) (l : List α) :
    (List.enumFrom n l).map (fun e => f e.2) = l.map f := by
  induction l generalizing n with
  | nil => rfl
  | cons x xs ih => simp [List.enumFrom, ih]

theorem mem_pieTop5 (rows : List Row) (e : Nat × String × ℚ)
    (he : e ∈ pieTop5 rows) : e.2 ∈ productSums rows := by
  have h1 : e ∈ List.insertionSort (fun a b => b.2.2 ≤ a.2.2)
      ((productSums rows).enum) := List.take_subset 5 _ he
  have h2 : e ∈ (productSums rows).enum :=
    (List.perm_insertionSort _ _).mem_iff.mp h1
  have h3 : e.2 ∈ (productSums rows).enum.map Prod.snd :=
    List.mem_map_of_mem Prod.snd h2
  rwa [List.enum_map_snd] at h3

theorem length_pieTop5 (rows : List Row) : (pieTop5 rows).length ≤ 5 :=
  List.length_take_le 5 _

theorem pieTop5_sum_le (rows : List Row) (h : ∀ r ∈ rows, 0 ≤ r.sales) :
    ((pieTop5 rows).map (fun e => e.2.2)).sum ≤ totalSales rows := by
  have hperm : (List.insertionSort (fun a b => b.2.2 ≤ a.2.2)
      ((productSums rows).enum)).Perm ((productSums rows).enum) :=
    List.perm_insertionSort _ _
  have hmapped :
      ((List.insertionSort (fun a b => b.2.2 ≤ a.2.2)
        ((productSums rows).enum)).map (fun e => e.2.2)).sum
        = (((productSums rows).enum).map (fun e => e.2.2)).sum :=
    (hperm.map _).sum_eq
  have henum : (((productSums rows).enum).map (fun e => e.2.2)).sum
      = ((productSums rows).map Prod.snd).sum := by
    rw [List.enum, map_enumFrom_snd Prod.snd 0 (productSums rows)]
  have htake : ((pieTop5 rows).map (fun e => e.2.2)).sum
      ≤ ((List.insertionSort (fun a b => b.2.2 ≤ a.2.2)
          ((productSums rows).enum)).map (fun e => e.2.2)).sum := by
    rw [pieTop5, List.map_take]
    apply sum_take_le
    intro x hx
    rcases List.mem_map.mp hx with ⟨e, he, rfl⟩
    have : e.2 ∈ productSums rows := by
      have h2 : e ∈ (productSums rows).enum := hperm.mem_iff.mp he
      have h3 : e.2 ∈ (productSums rows).enum.map Prod.snd :=
        List.mem_map_of_mem Prod.snd h2
      rwa [List.enum_map_snd] at h3
    exact groupSum_val_nonneg Row.product Row.sales rows h e.2 this
  have hsum : ((productSums rows).map Prod.snd).sum = totalSales rows :=
    groupSum_sum Row.product Row.sales rows
  linarith [htake, hmapped.le, henum.le]

theorem totalSales_nonneg (rows : List Row) (h : ∀ r ∈ rows, 0 ≤ r.sales) :
    0 ≤ totalSales rows :=
  List.sum_nonneg (fun x hx => by
    rcases List.mem_map.mp hx with ⟨r, hr, rfl⟩; exact h r hr)

/-- C2 (amended): for every valid upload (nonnegative sales, per the data
model), every pie value lies in [0, 100] and the values sum to at most
100.25 — each of the at most five rounded slices can exceed its exact
percentage share by at most 0.05; the sum need not equal 100 when at most
five products exist, and can exceed 100. -/
theorem claimC2_theorem (rows : List Row) (h : ∀ r ∈ rows, 0 ≤ r.sales) :
    (∀ s ∈ pieChartData rows, 0 ≤ s.value ∧ s.value ≤ 100) ∧
    ((pieChartData rows).map Slice.value).sum ≤ 401/4 := by
  constructor
  · intro s hs
    rcases List.mem_map.mp hs with ⟨e, he, rfl⟩
    have hmem := mem_pieTop5 rows e he
    have hv0 : 0 ≤ e.2.2 := groupSum_val_nonneg _ _ rows h e.2 hmem
    have hvT : e.2.2 ≤ totalSales rows :=
      groupSum_val_le_total _ _ rows h e.2 hmem
    show 0 ≤ sliceVal (totalSales rows) e.2.2 ∧
      sliceVal (totalSales rows) e.2.2 ≤ 100
    by_cases hTpos : 0 < totalSales rows
    · have harg0 : 0 ≤ e.2.2 / totalSales rows * 100 := by positivity
      have harg100 : e.2.2 / totalSales rows * 100 ≤ 100 := by
        have h1 : e.2.2 / totalSales rows ≤ 1 := (div_le_one hTpos).mpr hvT
        nlinarith
      rw [sliceVal, if_pos hTpos]
      exact ⟨round1_nonneg _ harg0, round1_le_hundred _ harg100⟩
    · rw [sliceVal, if_neg hTpos]
      norm_num
  · have hmapeq : (pieChartData rows).map Slice.value
        = (pieTop5 rows).map (fun e => sliceVal (totalSales rows) e.2.2) := by
      rw [pieChartData, List.map_map]
      exact List.map_congr_left (fun e _ => rfl)
    rw [hmapeq]
    by_cases hTpos : 0 < totalSales rows
    · have hstep : ∀ e ∈ pieTop5 rows,
          sliceVal (totalSales rows) e.2.2
            ≤ e.2.2 * (100 / totalSales rows) + 1/20 := by
        intro e _
        rw [sliceVal, if_pos hTpos]
        have hr := round1_le (e.2.2 / totalSales rows * 100)
        have heq : e.2.2 / totalSales rows * 100
            = e.2.2 * (100 / totalSales rows) := by ring
        linarith [hr, heq.le, heq.ge]
      have h1 := List.sum_le_sum hstep
      have h2 := sum_map_add (pieTop5 rows)
        (fun e => e.2.2 * (100 / totalSales rows)) (fun _ => (1:ℚ)/20)
      have h3 := sum_map_mul_right (pieTop5 rows) (fun e => e.2.2)
        (100 / totalSales rows)
      have h4 := sum_map_const (pieTop5 rows) ((1:ℚ)/20)
      have h5 := pieTop5_sum_le rows h
      have h6 : ((pieTop5 rows).map (fun e => e.2.2)).sum
            * (100 / totalSales rows)
          ≤ totalSales rows * (100 / totalSales rows) := by
        apply mul_le_mul_of_nonneg_right h5
        positivity
      have h7 : totalSales rows * (100 / totalSales rows) = 100 := by
        field_simp
      have h8 : ((pieTop5 rows).length : ℚ) ≤ 5 := by
        exact_mod_cast length_pieTop5 rows
      linarith
    · have hz : ∀ e ∈ pieTop5 rows, sliceVal (totalSales rows) e.2.2 = (0:ℚ) :=
        fun e _ => by rw [sliceVal, if_neg hTpos]
      rw [List.map_congr_left hz, sum_map_const]
      norm_num

theorem round1_twoThirds : round1 ((200:ℚ)/3) = 667/10 :=
  round1_eq_up _ 666 _ (by norm_num) (by norm_num) (by norm_num)

theorem round1_oneThird : round1 ((100:ℚ)/3) = 333/10 :=
  round1_eq_down _ 333 _ (by norm_num) (by norm_num) (by norm_num)

theorem scenFilter : monthFilter "Jan" scenRows = scenJanRows := rfl

theorem scenOk : analyzeRows scenRows "Jan" "all" =
    Except.ok (buildResp scenJanRows) := rfl

theorem scenTotal : totalSales scenJanRows = 30 := by
  norm_num [totalSales, scenJanRows]

theorem scenProductSums : productSums scenJanRows = [("A", 10), ("B", 20)] := by
  rw [productSums, groupSum,
    (by decide : distinctKeysSorted (List.map Row.product scenJanRows) = ["A", "B"])]
  simp only [List.map_cons, List.map_nil]
  rw [(by decide : List.filter (fun r => Row.product r == "A") scenJanRows
      = [(⟨⟨2024, 1, 5⟩, 10, 100, "A"⟩ : Row)]),
    (by decide : List.filter (fun r => Row.product r == "B") scenJanRows
      = [(⟨⟨2024, 1, 12⟩, 20, 200, "B"⟩ : Row)])]
  norm_num

theorem scenBarSums : barSums scenJanRows = [("Jan", 30)] := by
  rw [barSums, groupSum,
    (by decide : distinctKeysSorted (List.map monthKey scenJanRows) = ["Jan"])]
  simp only [List.map_cons, List.map_nil]
  rw [(by decide : List.filter (fun r => monthKey r == "Jan") scenJanRows = scenJanRows)]
  norm_num [scenJanRows]

theorem scenBar : (buildResp scenJanRows).barChartData = [⟨"Jan", 30, "#3B82F6"⟩] := by
  have h : (buildResp scenJanRows).barChartData = barChartData scenJanRows := rfl
  rw [h, barChartData, scenBarSums]
  norm_num [barColors]

theorem scenPieTop5 : pieTop5 scenJanRows = [(1, "B", 20), (0, "A", 10)] := by
  rw [pieTop5, scenProductSums]
  norm_num [List.insertionSort, List.orderedInsert, List.enum, List.enumFrom]

theorem scenPie : (buildResp scenJanRows).pieChartData =
    [⟨"B", 667/10, "#10B981"⟩, ⟨"A", 333/10, "#3B82F6"⟩] := by
  have h : (buildResp scenJanRows).pieChartData = pieChartData scenJanRows := rfl
  rw [h, pieChartData, scenPieTop5, scenTotal]
  norm_num [sliceVal, pieColors, round1_twoThirds, round1_oneThird]

theorem scenTop : (buildResp scenJanRows).insights.topPerformers.getD 0 ""
    = "Jan showed the highest sales volume" := by
  decide

theorem round1_oneSeventh : round1 ((100:ℚ)/7) = 143/10 :=
  round1_eq_up _ 142 _ (by norm_num) (by norm_num) (by norm_num)

theorem round1_threeSevenths : round1 ((300:ℚ)/7) = 429/10 :=
  round1_eq_up _ 428 _ (by norm_num) (by norm_num) (by norm_num)

theorem sevenTotal : totalSales sevenRows = 7 := by
  norm_num [totalSales, sevenRows]

theorem sevenProductSums : productSums sevenRows =
    [("A", 1), ("B", 1), ("C", 1), ("D", 1), ("E", 3)] := by
  rw [productSums, groupSum,
    (by decide : distinctKeysSorted (List.map Row.product sevenRows)
      = ["A", "B", "C", "D", "E"])]
  simp only [List.map_cons, List.map_nil]
  rw [(by decide : List.filter (fun r => Row.product r == "A") sevenRows
      = [(⟨⟨2024, 1, 1⟩, 1, 0, "A"⟩ : Row)]),
    (by decide : List.filter (fun r => Row.product r == "B") sevenRows
      = [(⟨⟨2024, 1, 2⟩, 1, 0, "B"⟩ : Row)]),
    (by decide : List.filter (fun r => Row.product r == "C") sevenRows
      = [(⟨⟨2024, 1, 3⟩, 1, 0, "C"⟩ : Row)]),
    (by decide : List.filter (fun r => Row.product r == "D") sevenRows
      = [(⟨⟨2024, 1, 4⟩, 1, 0, "D"⟩ : Row)]),
    (by decide : List.filter (fun r => Row.product r == "E") sevenRows
      = [(⟨⟨2024, 1, 5⟩, 3, 0, "E"⟩ : Row)])]
  norm_num

theorem sevenPieTop5 : pieTop5 sevenRows =
    [(4, "E", 3), (0, "A", 1), (1, "B", 1), (2, "C", 1), (3, "D", 1)] := by
  rw [pieTop5, sevenProductSums]
  norm_num [List.insertionSort, List.orderedInsert, List.enum, List.enumFrom]

theorem sevenPie : pieChartData sevenRows =
    [⟨"E", 429/10, "#8B5CF6"⟩, ⟨"A", 143/10, "#3B82F6"⟩, ⟨"B", 143/10, "#10B981"⟩,
     ⟨"C", 143/10, "#F59E0B"⟩, ⟨"D", 143/10, "#EF4444"⟩] := by
  rw [pieChartData, sevenPieTop5, sevenTotal]
  norm_num [sliceVal, pieColors, round1_oneSeventh, round1_threeSevenths]

/-- C2 counterexample: on five products with sales 1, 1, 1, 1, 3 the rounded
pie values are 14.3, 14.3, 14.3, 14.3 and 42.9, summing to 100.1 — so the
claimed bound `sum ≤ 100` fails, and with exactly 5 ≤ 5 distinct products
the sum is not 100, so the claimed equality condition fails too. -/
theorem claimC2_counterexample :
    ¬ ((((pieChartData sevenRows).map Slice.value).sum ≤ 100) ∧
       ((((pieChartData sevenRows).map Slice.value).sum = 100) ↔
         (productSums sevenRows).length ≤ 5)) := by
  rw [sevenPie]
  norm_num

/-- C2 witness: the amended bound instantiated at the five-product table. -/
theorem claimC2_witness :
    (∀ r ∈ sevenRows, 0 ≤ r.sales) ∧
    ((∀ s ∈ pieChartData sevenRows, 0 ≤ s.value ∧ s.value ≤ 100) ∧
      ((pieChartData sevenRows).map Slice.value).sum ≤ 401/4) := by
  have h : ∀ r ∈ sevenRows, 0 ≤ r.sales := by
    intro r hr
    fin_cases hr <;> norm_num [sevenRows]
  exact ⟨h, claimC2_theorem sevenRows h⟩

/-- C1 counterexample: on the spec's scenario table filtered to January the
code's pie data is B (66.7) followed by A (33.3) — descending by sales — not
A (33.3) followed by B (66.7) as the claim states. -/
theorem claimC1_counterexample :
    (buildResp scenJanRows).pieChartData.map (fun s => (s.name, s.value))
      ≠ [("A", (333:ℚ)/10), ("B", (667:ℚ)/10)] := by
  rw [scenPie]
  norm_num

/-- C1 (amended): on the scenario table with `specificMonths="Jan"` the
response succeeds; `barChartData` is `[{month: "Jan", sales: 30, color:
"#3B82F6"}]`; `pieChartData` is the slice `{name: "B", value: 66.7}` followed
by `{name: "A", value: 33.3}` (percentages of the filtered total 30, in
descending-sales order); and the first `topPerformers` string mentions
"Jan". -/
theorem claimC1_theorem :
    analyzeRows scenRows "Jan" "all" = Except.ok (buildResp scenJanRows) ∧
    (buildResp scenJanRows).barChartData = [⟨"Jan", 30, "#3B82F6"⟩] ∧
    (buildResp scenJanRows).pieChartData
      = [⟨"B", 667/10, "#10B981"⟩, ⟨"A", 333/10, "#3B82F6"⟩] ∧
    (buildResp scenJanRows).insights.topPerformers.getD 0 ""
      = "Jan showed the highest sales volume" :=
  ⟨scenOk, scenBar, scenPie, scenTop⟩

/-- C8: when the filtered table's total sales is zero every pie value is 0
(the guard avoids the division); when the total is positive each value is
`round(productSales / totalSales * 100, 1)` for that slice's product. -/
theorem claimC8_theorem (rows : List Row) (s : Slice)
    (hs : s ∈ pieChartData rows) :
    (totalSales rows = 0 → s.value = 0) ∧
    (0 < totalSales rows →
      s.value = round1
        (((rows.filter (fun r => r.product == s.name)).map Row.sales).sum
          / totalSales rows * 100)) := by
  rcases List.mem_map.mp hs with ⟨e, he, rfl⟩
  have hmem := mem_pieTop5 rows e he
  have hval := mem_groupSum_val Row.product Row.sales rows e.2 hmem
  constructor
  · intro hT
    show sliceVal (totalSales rows) e.2.2 = 0
    rw [sliceVal, if_neg (by rw [hT]; exact lt_irrefl 0)]
  · intro hT
    show sliceVal (totalSales rows) e.2.2
      = round1 (((rows.filter (fun r => r.product == e.2.1)).map Row.sales).sum
          / totalSales rows * 100)
    rw [sliceVal, if_pos hT, hval]

theorem oneRowTotal : totalSales oneRow = 10 := by
  norm_num [totalSales, oneRow]

theorem round1_hundred : round1 (100 : ℚ) = 100 :=
  round1_eq_down _ 1000 _ (by norm_num) (by norm_num) (by norm_num)

theorem oneRowPie : pieChartData oneRow = [⟨"A", 100, "#3B82F6"⟩] := by
  rw [pieChartData, pieTop5, productSums, groupSum,
    (by decide : distinctKeysSorted (List.map Row.product oneRow) = ["A"])]
  simp only [List.map_cons, List.map_nil]
  rw [(by decide : List.filter (fun r => Row.product r == "A") oneRow = oneRow)]
  norm_num [oneRow, List.insertionSort, List.orderedInsert, List.enum,
    List.enumFrom, sliceVal, totalSales, pieColors, round1_hundred]

/-- C8 witness: the single-row table, whose one slice has value 100. -/
theorem claimC8_witness :
    ((⟨"A", 100, "#3B82F6"⟩ : Slice) ∈ pieChartData oneRow) ∧
    ((totalSales oneRow = 0 → (100:ℚ) = 0) ∧
     (0 < totalSales oneRow →
       (100:ℚ) = round1
         (((oneRow.filter (fun r => r.product == "A")).map Row.sales).sum
           / totalSales oneRow * 100))) := by
  have hmem : (⟨"A", 100, "#3B82F6"⟩ : Slice) ∈ pieChartData oneRow := by
    rw [oneRowPie]
    exact List.mem_singleton.mpr rfl
  exact ⟨hmem, claimC8_theorem oneRow _ hmem⟩

theorem barMonths_eq (rows : List Row) :
    (barChartData rows).map ChartPoint.month
      = distinctKeysSorted (rows.map monthKey) := by
  rw [barChartData, List.map_map]
  have h : (ChartPoint.month ∘ fun p : Nat × String × ℚ =>
      ChartPoint.mk p.2.1 p.2.2 (barColors.getD (p.1 % barColors.length) ""))
        = fun p : Nat × String × ℚ => Prod.fst p.2 := rfl
  rw [h, List.enum, map_enumFrom_snd Prod.fst, barSums, groupSum_keys]

/-- C10: the months of `barChartData` are strictly ascending in code-point
lexicographic order (`strLt`), a consequence of grouping with key sorting —
so the order is deterministic and alphabetical, not encounter order. -/
theorem claimC10_theorem (rows : List Row) :
    ((barChartData rows).map ChartPoint.month).Pairwise
      (fun a b => strLt a b = true) := by
  rw [barMonths_eq]
  exact pairwise_distinctKeysSorted _

theorem analyzeRows_ok (rows : List Row) (sm pf : String) (resp : Resp)
    (h : analyzeRows rows sm pf = Except.ok resp) :
    resp = buildResp (monthFilter sm rows) := by
  unfold analyzeRows at h
  split_ifs at h with h1 h2
  exact (Except.ok.inj h).symm

/-- C3: for every upload that reaches aggregation, the months of
`barChartData` are exactly the distinct month abbreviations of the
post-filter table: no duplicates, and membership coincides. -/
theorem claimC3_theorem (rows : List Row) (sm pf : String) (resp : Resp)
    (h : analyzeRows rows sm pf = Except.ok resp) :
    (resp.barChartData.map ChartPoint.month).Nodup ∧
    (∀ m, m ∈ resp.barChartData.map ChartPoint.month ↔
      m ∈ (monthFilter sm rows).map monthKey) := by
  rw [analyzeRows_ok rows sm pf resp h]
  have hb : (buildResp (monthFilter sm rows)).barChartData
      = barChartData (monthFilter sm rows) := rfl
  rw [hb, barMonths_eq]
  exact ⟨nodup_distinctKeysSorted _, fun m => mem_distinctKeysSorted m _⟩

/-- C3 witness: the claim instantiated on the January/February table with no
month filter. -/
theorem claimC3_witness :
    ((buildResp (monthFilter "" janFebRows)).barChartData.map
      ChartPoint.month).Nodup ∧
    ("Feb" ∈ (buildResp (monthFilter "" janFebRows)).barChartData.map
        ChartPoint.month ↔
      "Feb" ∈ (monthFilter "" janFebRows).map monthKey) := by
  have h := claimC3_theorem janFebRows "" "all"
    (buildResp (monthFilter "" janFebRows)) rfl
  exact ⟨h.1, h.2 "Feb"⟩

/-- C4: if validation succeeds, `specificMonths` is nonempty and the month
filter leaves zero rows, the request fails with HTTP 400 and a message naming
the requested months; no aggregation output is produced. -/
theorem claimC4_theorem (t : RawTable) (rows : List Row) (sm pf : String)
    (hv : validateTable t = Except.ok rows) (hsm : sm ≠ "")
    (hempty : monthFilter sm rows = []) :
    analyzeFile t sm pf
      = Except.error (400, "No data found for specified months: " ++ sm) := by
  simp only [analyzeFile, hv, analyzeRows]
  rw [if_pos ⟨hsm, hempty⟩]

/-- C4 witness: requesting "Dec" on a table with only January and February
rows yields the 400 whose message contains "Dec". -/
theorem claimC4_witness :
    analyzeFile tableJanFeb "Dec" "all"
      = Except.error (400, "No data found for specified months: " ++ "Dec") :=
  claimC4_theorem tableJanFeb
    [⟨⟨2024, 1, 5⟩, 10, 100, "A"⟩, ⟨⟨2024, 2, 1⟩, 5, 50, "A"⟩] "Dec" "all"
    rfl (by decide) (by decide)

/-- C5: whenever any required column is missing the request fails with HTTP
400 listing exactly the missing column names — all of them — regardless of
the cell contents, i.e. before any type or date validation. -/
theorem claimC5_theorem (t : RawTable) (sm pf : String)
    (h : missingColumns t ≠ []) :
    analyzeFile t sm pf = Except.error (400,
      "Missing required columns: "
        ++ String.intercalate ", " (missingColumns t)) := by
  have hv : validateTable t = Except.error (400,
      "Missing required columns: "
        ++ String.intercalate ", " (missingColumns t)) := by
    rw [validateTable, if_pos h]
  simp only [analyzeFile, hv]

/-- C5 witness: a table missing both `Sales` and `Product` (and containing
garbage cells elsewhere) is rejected listing exactly those two columns. -/
theorem claimC5_witness :
    missingColumns tableMissingCols = ["Sales", "Product"] ∧
    analyzeFile tableMissingCols "Jan" "all" = Except.error (400,
      "Missing required columns: "
        ++ String.intercalate ", " (missingColumns tableMissingCols)) :=
  ⟨by decide, claimC5_theorem tableMissingCols "Jan" "all" (by decide)⟩

/-- C7: one non-numeric cell anywhere in `Sales` or `Revenue` rejects the
whole upload with HTTP 400 before any aggregation — there is no row-level
rejection. -/
theorem claimC7_theorem (t : RawTable) (sm pf : String)
    (hcols : missingColumns t = [])
    (hbad : (∃ c ∈ getCol t "Sales", isNumCell c = false) ∨
            (∃ c ∈ getCol t "Revenue", isNumCell c = false)) :
    analyzeFile t sm pf = Except.error (400,
      "Sales and Revenue columns must contain numeric values") := by
  have hv : validateTable t = Except.error (400,
      "Sales and Revenue columns must contain numeric values") := by
    rw [validateTable, if_neg (by simp [hcols])]
    have hfalse : ((getCol t "Sales").all isNumCell &&
        (getCol t "Revenue").all isNumCell) = false := by
      rcases hbad with ⟨c, hc, hnum⟩ | ⟨c, hc, hnum⟩
      · have : (getCol t "Sales").all isNumCell = false := by
          rw [List.all_eq_false]
          exact ⟨c, hc, by simp [hnum]⟩
        simp [this]
      · have : (getCol t "Revenue").all isNumCell = false := by
          rw [List.all_eq_false]
          exact ⟨c, hc, by simp [hnum]⟩
        simp [this]
    rw [hfalse]
    rfl
  simp only [analyzeFile, hv]

/-- C7 witness: a `Sales` column containing the text cell "N/A" alongside a
numeric cell rejects the whole file. -/
theorem claimC7_witness :
    missingColumns tableBadSales = [] ∧
    (∃ c ∈ getCol tableBadSales "Sales", isNumCell c = false) ∧
    analyzeFile tableBadSales "Jan" "all" = Except.error (400,
      "Sales and Revenue columns must contain numeric values") :=
  ⟨by decide, ⟨Cell.text "N/A", by decide, rfl⟩,
    claimC7_theorem tableBadSales "Jan" "all" (by decide)
      (Or.inl ⟨Cell.text "N/A", by decide, rfl⟩)⟩

/-- C6: an empty `specificMonths` (no filter) produces the same response as
an explicit list covering every month present in the data, for nonempty
data. -/
theorem claimC6_theorem (rows : List Row) (sm pf : String) (hsm : sm ≠ "")
    (hne : rows ≠ [])
    (hcov : ∀ r ∈ rows, (parseMonths sm).contains (monthKey r) = true) :
    analyzeRows rows "" pf = analyzeRows rows sm pf := by
  have hfilter : monthFilter sm rows = rows := by
    rw [monthFilter, if_neg hsm]
    exact List.filter_eq_self.mpr (fun r hr => hcov r hr)
  have hempty : monthFilter "" rows = rows := by
    rw [monthFilter, if_pos rfl]
  simp only [analyzeRows, hfilter, hempty]
  rw [if_neg (fun hand => hand.1 rfl : ¬("" ≠ "" ∧ rows = [])), if_neg hne,
      if_neg (fun hand => hne hand.2 : ¬(sm ≠ "" ∧ rows = []))]

/-- C6 witness: on the January/February table, no filter and the explicit
list "Jan,Feb" give identical responses. -/
theorem claimC6_witness :
    analyzeRows janFebRows "" "all" = analyzeRows janFebRows "Jan,Feb" "all" :=
  claimC6_theorem janFebRows "Jan,Feb" "all" (by decide) (by decide) (by decide)

/-- C9: the `productFilter` form field has no effect on the response — the
same table and months give identical results for any two filter values. -/
theorem claimC9_theorem (t : RawTable) (sm pf1 pf2 : String) :
    analyzeFile t sm pf1 = analyzeFile t sm pf2 := rfl
